import Mathlib

/-!
Shallow embedding of the versioned backup/restore schema-mapping core of
the repository (src/schema_manager.py, src/mapper.py, src/backup_engine.py,
src/restore_engine.py), together with proofs about the claims of its
specification.

Rows and field values are the JSON scalars the system moves around
(null, integers, strings, booleans); Python dicts are modelled as
association lists with first-match lookup and replace-or-append insertion,
which is the dict semantics on the unique-key dicts the code builds.
A Python method that can raise is modelled as a function into `Option`
(`none` = exception propagated to the caller); the object state a method
mutates is threaded explicitly.
-/

namespace BackupRestore

/-- A JSON scalar value as moved around by the backup/restore pipeline.
`null` plays Python's `None`, which the code uses both for "absent" and
for the SQL NULL literal. -/
inductive Value where
  | null : Value
  | int : Int → Value
  | str : String → Value
  | bool : Bool → Value
deriving DecidableEq, Repr

/-- A row is a Python dict from field name to value: an association list
with unique keys. -/
abbrev Row := List (String × Value)

/-- Python dict lookup (`d.get(k)` / `d[k]`): first matching key. -/
def assocFind {κ α : Type} [DecidableEq κ] : List (κ × α) → κ → Option α
  | [], _ => none
  | (k, v) :: rest, key => if k = key then some v else assocFind rest key

/-- Python dict assignment `d[k] = v`: replace the value at an existing
key (keeping its position) or append a fresh entry. -/
def assocInsert {κ α : Type} [DecidableEq κ] :
    List (κ × α) → κ → α → List (κ × α)
  | [], k, v => [(k, v)]
  | (k', v') :: rest, k, v =>
      if k' = k then (k, v) :: rest else (k', v') :: assocInsert rest k v

/-- `source_row.get(field)` in `map_row`: a missing key yields Python
`None`, i.e. `Value.null`. -/
def rowGet (r : Row) (k : String) : Value :=
  (assocFind r k).getD Value.null

/-- Python `str(value)` on the modelled scalars. -/
def pyStr : Value → String
  | Value.null => "None"
  | Value.int n => toString n
  | Value.str s => s
  | Value.bool b => if b then "True" else "False"

/-- Python `int(s)` on a string: optional surrounding whitespace, an
optional sign, then a non-empty digit run; anything else raises
(modelled as `none`). -/
def pyParseInt (s : String) : Option Int :=
  let t := s.trim
  let signAndDigits : Int × List Char :=
    match t.toList with
    | '-' :: rest => (-1, rest)
    | '+' :: rest => (1, rest)
    | cs => (1, cs)
  let digits := signAndDigits.2
  if digits ≠ [] ∧ digits.all Char.isDigit then
    some (signAndDigits.1 *
      ((digits.foldl (fun acc c => acc * 10 + (c.toNat - 48)) 0 : Nat) : Int))
  else none

/-- Python `int(value)` on the modelled scalars (`none` = raised). -/
def pyToInt : Value → Option Int
  | Value.null => none
  | Value.int n => some n
  | Value.bool b => some (if b then 1 else 0)
  | Value.str s => pyParseInt s

deriving instance DecidableEq for Except

/-! ## Schema model (src/schema_manager.py) -/

/-- `FieldDefinition` dataclass. `default` keeps Python's `None` sentinel
as `Value.null` ("no default declared"). -/
structure FieldDefinition where
  name : String
  type : String
  nullable : Bool := true
  default : Value := Value.null
deriving DecidableEq, Repr

/-- `TableDefinition` dataclass. -/
structure TableDefinition where
  name : String
  fields : List FieldDefinition
  primary_key : List String
  foreign_keys : List (String × String) := []
deriving DecidableEq, Repr

/-- `SchemaVersion` dataclass; `tables` is the dict from table name to
definition. -/
structure SchemaVersion where
  version : String
  tables : List (String × TableDefinition)
  description : String := ""
deriving DecidableEq, Repr

/-- The `{f.name: f for f in fields}` dict lookup used throughout
`mapper.py` and `schema_manager.py` (first match; field names are unique
within a table by the schema invariant). -/
def lookupField : List FieldDefinition → String → Option FieldDefinition
  | [], _ => none
  | f :: fs, n => if f.name = n then some f else lookupField fs n

/-! ## Mapper data model (src/mapper.py) -/

/-- `FieldMapping` dataclass. `source_field` is `Optional`; `transform`
is an optional transform-function name; `default_value` keeps Python's
`None` sentinel as `Value.null`. -/
structure FieldMapping where
  source_field : Option String
  target_field : String
  transform : Option String := none
  default_value : Value := Value.null
  mapping_type : String := "direct"
deriving DecidableEq, Repr

/-- `TableMapping` dataclass. -/
structure TableMapping where
  source_table : String
  target_table : String
  field_mappings : List FieldMapping
  condition : Option String := none
deriving DecidableEq, Repr

/-- The mutable state of a `DataMapper` instance. `transformation_rules`
is a dict from field name to a callable; the code only ever tests key
membership, so the keys suffice. -/
structure DataMapper where
  source_schema : SchemaVersion
  target_schema : SchemaVersion
  mappings : List (String × TableMapping) := []
  auto_generated_count : Nat := 0
  manual_count : Nat := 0
  transformation_rules : List String := []
deriving DecidableEq, Repr

/-- `DataMapper._is_type_compatible`: identical types, or an ordered pair
of the fixed widening table. -/
def is_type_compatible (source_type target_type : String) : Bool :=
  source_type = target_type ||
    [("INT", "BIGINT"), ("FLOAT", "DOUBLE"), ("VARCHAR", "TEXT"),
      ("DATE", "DATETIME")].contains (source_type, target_type)

/-- `DataMapper._get_type_cast`: the cast-name lookup with `identity` as
the fallback for pairs outside the widening table. -/
def get_type_cast (source_type target_type : String) : String :=
  (assocFind
    [(("INT", "BIGINT"), "to_bigint"), (("FLOAT", "DOUBLE"), "to_double"),
      (("VARCHAR", "TEXT"), "to_text"), (("DATE", "DATETIME"), "to_datetime")]
    (source_type, target_type)).getD "identity"

/-- The `direct` field mapping Phase 1 emits for a common field of
compatible types: `FieldMapping(source_field=name, target_field=name,
mapping_type="direct")`. -/
def directFM (n : String) : FieldMapping :=
  { source_field := some n, target_field := n, transform := none,
    default_value := Value.null, mapping_type := "direct" }

/-- The `cast` field mapping Phase 1 emits for a common field of
incompatible types: transform from `_get_type_cast`. -/
def castFM (n cast : String) : FieldMapping :=
  { source_field := some n, target_field := n, transform := some cast,
    default_value := Value.null, mapping_type := "cast" }

/-- The `default` field mapping Phase 3 emits (declared default, or NULL
for a nullable field): `FieldMapping(source_field=None, target_field=name,
default_value=v, mapping_type="default")`. -/
def defaultFM (n : String) (v : Value) : FieldMapping :=
  { source_field := none, target_field := n, transform := none,
    default_value := v, mapping_type := "default" }

/-- The `computed` field mapping Phase 3 emits for a registered
transformation rule: transform is the field name itself. -/
def computedFM (n : String) : FieldMapping :=
  { source_field := none, target_field := n, transform := some n,
    default_value := Value.null, mapping_type := "computed" }

/-- Accumulator threaded through the two generation phases: the emitted
field mappings and the two instance counters. -/
structure GenAcc where
  fms : List FieldMapping
  auto : Nat
  manual : Nat
deriving DecidableEq, Repr

/-- One iteration of Phase 1 of `generate_automatic_mapping`: a source
field that also exists in the target is emitted as `direct` when the
types are compatible, else as `cast` with the looked-up cast name; fields
absent from the target are skipped (they belong to Phase 2, which emits
nothing). -/
def phase1Step (tgtFields : List FieldDefinition) (acc : GenAcc)
    (f : FieldDefinition) : GenAcc :=
  match lookupField tgtFields f.name with
  | none => acc
  | some g =>
      if is_type_compatible f.type g.type then
        { acc with fms := acc.fms ++ [directFM f.name], auto := acc.auto + 1 }
      else
        { acc with
          fms := acc.fms ++ [castFM f.name (get_type_cast f.type g.type)],
          auto := acc.auto + 1 }

/-- One iteration of Phase 3 of `generate_automatic_mapping`: a target
field absent from the source is filled from its declared default, a
registered transformation rule, or NULL when nullable; otherwise nothing
is emitted and the manual counter is bumped. Target fields that also
exist in the source are skipped (Phase 1 handled them). -/
def phase3Step (srcFields : List FieldDefinition) (rules : List String)
    (acc : GenAcc) (g : FieldDefinition) : GenAcc :=
  match lookupField srcFields g.name with
  | some _ => acc
  | none =>
      if g.default ≠ Value.null then
        { acc with
          fms := acc.fms ++ [defaultFM g.name g.default],
          auto := acc.auto + 1 }
      else if g.name ∈ rules then
        { acc with fms := acc.fms ++ [computedFM g.name], auto := acc.auto + 1 }
      else if g.nullable then
        { acc with
          fms := acc.fms ++ [defaultFM g.name Value.null],
          auto := acc.auto + 1 }
      else
        { acc with manual := acc.manual + 1 }

/-- `DataMapper.generate_automatic_mapping`. Raises (here: `Except.error`
with the formatted message) when the table is missing from either schema;
otherwise runs Phase 1 over the source fields and Phase 3 over the target
fields and returns the assembled `TableMapping` together with the updated
instance state. -/
def generate_automatic_mapping (m : DataMapper) (table_name : String) :
    Except String (TableMapping × DataMapper) :=
  match assocFind m.source_schema.tables table_name,
        assocFind m.target_schema.tables table_name with
  | some source_table, some target_table =>
      let acc0 : GenAcc := ⟨[], m.auto_generated_count, m.manual_count⟩
      let acc1 := source_table.fields.foldl (phase1Step target_table.fields) acc0
      let acc2 := target_table.fields.foldl
        (phase3Step source_table.fields m.transformation_rules) acc1
      Except.ok
        ({ source_table := table_name, target_table := table_name,
           field_mappings := acc2.fms, condition := none },
         { m with auto_generated_count := acc2.auto, manual_count := acc2.manual })
  | _, _ =>
      Except.error ("Table " ++ table_name ++ " not found in source or target schema")

/-- `DataMapper.add_table_mapping`: store the mapping under its source
table name. -/
def add_table_mapping (m : DataMapper) (mapping : TableMapping) : DataMapper :=
  { m with mappings := assocInsert m.mappings mapping.source_table mapping }

/-- `DataMapper._apply_transform`: only `to_string` and `to_int` are
recognized; every other name returns the value unchanged. `none` models
a raised exception (Python `int` on a non-numeric string). -/
def applyTransform (value : Value) (transform : String) : Option Value :=
  if transform = "to_string" then
    some (if value = Value.null then Value.null else Value.str (pyStr value))
  else if transform = "to_int" then
    if value = Value.null then some Value.null
    else (pyToInt value).map Value.int
  else
    some value

/-- The source value `map_row` reads for a field mapping:
`source_row.get(source_field)`, where a `None` source field (Phase 3
mappings) also yields `None`. -/
def sourceValueOf (source_row : Row) (fm : FieldMapping) : Value :=
  match fm.source_field with
  | some sf => rowGet source_row sf
  | none => Value.null

/-- The body of `map_row`'s per-field-mapping loop: default when the
source value is `None` and a default is configured, else the transform
when one is configured (Python truthiness: the empty string does not
count), else the verbatim copy. -/
def applyFieldMapping (source_row : Row) (target_row : Row)
    (fm : FieldMapping) : Option Row :=
  let source_value := sourceValueOf source_row fm
  if source_value = Value.null ∧ fm.default_value ≠ Value.null then
    some (assocInsert target_row fm.target_field fm.default_value)
  else
    match fm.transform with
    | some t =>
        if t = "" then some (assocInsert target_row fm.target_field source_value)
        else (applyTransform source_value t).map
          (assocInsert target_row fm.target_field)
    | none => some (assocInsert target_row fm.target_field source_value)

/-- `DataMapper.map_row`: passthrough when no mapping is registered for
the table, else the per-field loop over an initially empty target row. -/
def map_row (m : DataMapper) (table_name : String) (source_row : Row) :
    Option Row :=
  match assocFind m.mappings table_name with
  | none => some source_row
  | some mapping => mapping.field_mappings.foldlM (applyFieldMapping source_row) []

/-! ## Schema manager diffs (src/schema_manager.py) -/

/-- The `{type, nullable}` snapshot recorded for a modified field. -/
structure FieldState where
  type : String
  nullable : Bool
deriving DecidableEq, Repr

/-- The `TableDiff` dict built by `SchemaManager._compare_tables`. -/
structure TableDiff where
  added_fields : List String
  removed_fields : List String
  modified_fields : List (String × FieldState × FieldState)
deriving DecidableEq, Repr

/-- The diff dict built by `SchemaManager.compare_versions`. -/
structure SchemaDiff where
  added_tables : List String
  removed_tables : List String
  modified_tables : List (String × TableDiff)
deriving DecidableEq, Repr

/-- `SchemaManager._compare_tables`: field sets added/removed/modified,
`none` when all three are empty. -/
def compare_tables (table1 table2 : TableDefinition) : Option TableDiff :=
  let names1 := table1.fields.map FieldDefinition.name
  let names2 := table2.fields.map FieldDefinition.name
  let added := names2.filter (fun n => !(names1.contains n))
  let removed := names1.filter (fun n => !(names2.contains n))
  let modified := names1.filterMap (fun n =>
    match lookupField table1.fields n, lookupField table2.fields n with
    | some f1, some f2 =>
        if f1.type ≠ f2.type ∨ f1.nullable ≠ f2.nullable then
          some (n, (⟨f1.type, f1.nullable⟩ : FieldState), (⟨f2.type, f2.nullable⟩ : FieldState))
        else none
    | _, _ => none)
  if added = [] ∧ removed = [] ∧ modified = [] then none
  else some ⟨added, removed, modified⟩

/-- The state of a `SchemaManager`: its loaded versions dict. -/
structure SchemaManager where
  versions : List (String × SchemaVersion)
deriving DecidableEq, Repr

/-- `SchemaManager.compare_versions`: raises (here `none`) when either
label is unregistered, else assembles added/removed/modified tables. -/
def compare_versions (sm : SchemaManager) (v1 v2 : String) : Option SchemaDiff :=
  match assocFind sm.versions v1, assocFind sm.versions v2 with
  | some schema1, some schema2 =>
      let tables1 := schema1.tables.map Prod.fst
      let tables2 := schema2.tables.map Prod.fst
      let added := tables2.filter (fun n => !(tables1.contains n))
      let removed := tables1.filter (fun n => !(tables2.contains n))
      let modified := tables1.filterMap (fun n =>
        match assocFind schema1.tables n, assocFind schema2.tables n with
        | some t1, some t2 => (compare_tables t1 t2).map (fun d => (n, d))
        | _, _ => none)
      some ⟨added, removed, modified⟩
  | _, _ => none

/-! ## Backup and restore engines -/

/-- The backup record `BackupEngine.backup_table` serializes. -/
structure BackupData where
  schema_version : String
  table_name : String
  timestamp : String
  row_count : Nat
  data : List Row
deriving DecidableEq, Repr

/-- `BackupEngine.backup_table` minus the file write: the record built
from the engine's configured schema version, the table name, the clock
timestamp and the rows. -/
def backup_table (schema_version table_name timestamp : String)
    (rows : List Row) : BackupData :=
  { schema_version := schema_version, table_name := table_name,
    timestamp := timestamp, row_count := rows.length, data := rows }

/-- The state of a `RestoreEngine`. -/
structure RestoreEngine where
  target_version : String
  mapper : Option DataMapper := none
deriving DecidableEq, Repr

/-- `RestoreEngine.restore_from_file` minus the file read: same version
returns the rows as stored; a different version maps each row through
the mapper when one is configured, else returns the rows as stored. -/
def restore_from_file (e : RestoreEngine) (b : BackupData) : Option (List Row) :=
  if b.schema_version = e.target_version then some b.data
  else
    match e.mapper with
    | some m => b.data.mapM (map_row m b.table_name)
    | none => some b.data

/-! ## Derived forms of the generation algorithm, used to state theorems -/

/-- The list of field mappings Phase 1 emits, written as a `filterMap`
over the source fields (one pass over `common_fields`). -/
def phase1List (src tgt : List FieldDefinition) : List FieldMapping :=
  src.filterMap (fun f =>
    match lookupField tgt f.name with
    | none => none
    | some g =>
        if is_type_compatible f.type g.type then some (directFM f.name)
        else some (castFM f.name (get_type_cast f.type g.type)))

/-- The list of field mappings Phase 3 emits, written as a `filterMap`
over the target fields (one pass over `added_fields`). -/
def phase3List (src tgt : List FieldDefinition) (rules : List String) :
    List FieldMapping :=
  tgt.filterMap (fun g =>
    match lookupField src g.name with
    | some _ => none
    | none =>
        if g.default ≠ Value.null then some (defaultFM g.name g.default)
        else if g.name ∈ rules then some (computedFM g.name)
        else if g.nullable then some (defaultFM g.name Value.null)
        else none)

/-- A target field that reaches Phase 3's final branch: only in the
target, no declared default, no registered rule, not nullable. -/
def needsManual (src : List FieldDefinition) (rules : List String)
    (g : FieldDefinition) : Bool :=
  (lookupField src g.name).isNone && (g.default == Value.null) &&
    !(rules.contains g.name) && !g.nullable

/-- How many target fields of one generation call require a manual
mapping. -/
def manualFieldCount (src tgt : List FieldDefinition)
    (rules : List String) : Nat :=
  (tgt.filter (needsManual src rules)).length

/-- `manualFieldCount` for a table looked up through a mapper's two
schemas (0 when the table is missing, in which case generation raises
and the counter is untouched). -/
def manualCountFor (m : DataMapper) (t : String) : Nat :=
  match assocFind m.source_schema.tables t, assocFind m.target_schema.tables t with
  | some st, some tt => manualFieldCount st.fields tt.fields m.transformation_rules
  | _, _ => 0

/-- A sequence of `generate_automatic_mapping` calls on one mapper
instance, stopping at the first raised error (`none`). -/
def runGenerateAll (m : DataMapper) :
    List String → Option (List TableMapping × DataMapper)
  | [] => some ([], m)
  | t :: ts =>
      match generate_automatic_mapping m t with
      | Except.error _ => none
      | Except.ok (tm, m') =>
          (runGenerateAll m' ts).map (fun p => (tm :: p.1, p.2))

/-- The mapper state observable after a `generate_automatic_mapping`
call: the updated state on success, the original state when the call
raised (a raised Python exception leaves the instance as it was). -/
def genStateAfter (m : DataMapper) (t : String) : DataMapper :=
  match generate_automatic_mapping m t with
  | Except.ok (_, m') => m'
  | Except.error _ => m

/-- Restriction of a row to a list of keys, built the way `map_row`
builds its target row. -/
def projectRow (r : Row) (keys : List String) : Row :=
  keys.foldl (fun a k => assocInsert a k (rowGet r k)) []

/-! ## Concrete fixtures: the spec's Scenario A and Scenario B -/

/-- Scenario A source table: `patients = {id:INT(pk), name:VARCHAR,
age:INT}`. -/
def scenarioASourceTable : TableDefinition :=
  { name := "patients",
    fields := [ { name := "id", type := "INT" },
                { name := "name", type := "VARCHAR" },
                { name := "age", type := "INT" } ],
    primary_key := ["id"] }

/-- Scenario A target table: `patients = {id:INT(pk), name:VARCHAR,
age:BIGINT, email:VARCHAR(nullable, no default)}`. -/
def scenarioATargetTable : TableDefinition :=
  { name := "patients",
    fields := [ { name := "id", type := "INT" },
                { name := "name", type := "VARCHAR" },
                { name := "age", type := "BIGINT" },
                { name := "email", type := "VARCHAR" } ],
    primary_key := ["id"] }

/-- Scenario B target table: Scenario A's source table plus a required
(`nullable=false`, no default) `ssn` field with no registered rule. -/
def scenarioBTargetTable : TableDefinition :=
  { name := "patients",
    fields := [ { name := "id", type := "INT" },
                { name := "name", type := "VARCHAR" },
                { name := "age", type := "INT" },
                { name := "ssn", type := "VARCHAR", nullable := false } ],
    primary_key := ["id"] }

/-- Scenario A source schema version. -/
def scenarioASource : SchemaVersion :=
  { version := "1.0.0", tables := [("patients", scenarioASourceTable)] }

/-- Scenario A target schema version. -/
def scenarioATarget : SchemaVersion :=
  { version := "2.0.0", tables := [("patients", scenarioATargetTable)] }

/-- A fresh `DataMapper(scenarioASource, scenarioATarget)`. -/
def scenarioAMapper : DataMapper :=
  { source_schema := scenarioASource, target_schema := scenarioATarget }

/-- Scenario B target schema version. -/
def scenarioBTarget : SchemaVersion :=
  { version := "2.0.0", tables := [("patients", scenarioBTargetTable)] }

/-- A fresh `DataMapper(scenarioASource, scenarioBTarget)`. -/
def scenarioBMapper : DataMapper :=
  { source_schema := scenarioASource, target_schema := scenarioBTarget }

/-- The `TableMapping` `generate_automatic_mapping` produces for
Scenario A (checked against the generator below). -/
def scenarioATM : TableMapping :=
  { source_table := "patients", target_table := "patients",
    field_mappings := [directFM "id", directFM "name", directFM "age",
      defaultFM "email" Value.null] }

/-- The mapper state after the Scenario A generation call. -/
def scenarioAFinal : DataMapper :=
  { scenarioAMapper with auto_generated_count := 4 }

/-- The `TableMapping` produced for Scenario B. -/
def scenarioBTM : TableMapping :=
  { source_table := "patients", target_table := "patients",
    field_mappings := [directFM "id", directFM "name", directFM "age"] }

/-- The mapper state after the Scenario B generation call. -/
def scenarioBFinal : DataMapper :=
  { scenarioBMapper with auto_generated_count := 3, manual_count := 1 }

/-- A manually registered all-`direct` table mapping, for the projection
claim. -/
def directPatientsTM : TableMapping :=
  { source_table := "patients", target_table := "patients",
    field_mappings := [directFM "id", directFM "name"] }

/-- Scenario A's mapper with `directPatientsTM` registered via
`add_table_mapping`. -/
def registeredMapper : DataMapper :=
  add_table_mapping scenarioAMapper directPatientsTM

/-- Scenario A / D's sample source row. -/
def sampleRow : Row :=
  [("id", Value.int 1), ("name", Value.str "A"), ("age", Value.int 45)]

/-- A one-field table used by the version-diff fixture. -/
def diffTable (n : String) : TableDefinition :=
  { name := n, fields := [{ name := "id", type := "INT" }], primary_key := ["id"] }

/-- Version fixture: tables `a`, `b`. -/
def versionOne : SchemaVersion :=
  { version := "1", tables := [("a", diffTable "a"), ("b", diffTable "b")] }

/-- Version fixture: tables `b`, `c`. -/
def versionTwo : SchemaVersion :=
  { version := "2", tables := [("b", diffTable "b"), ("c", diffTable "c")] }

/-- A schema manager holding the two fixture versions. -/
def sampleManager : SchemaManager :=
  { versions := [("1", versionOne), ("2", versionTwo)] }

/-- A backup record of `sampleRow` under version `1.0.0`. -/
def sampleBackup : BackupData :=
  backup_table "1.0.0" "patients" "20240206_120000" [sampleRow]

/-- A registered mapping with an empty field-mapping sequence, for the
passthrough-versus-empty-projection distinction. -/
def emptyTM : TableMapping :=
  { source_table := "patients", target_table := "patients",
    field_mappings := [] }

/-- Scenario A's mapper with the empty mapping registered. -/
def emptyRegisteredMapper : DataMapper :=
  add_table_mapping scenarioAMapper emptyTM

/-! ## Helper lemmas -/

theorem assocFind_insert_self {κ α : Type} [DecidableEq κ]
    (l : List (κ × α)) (k : κ) (v : α) :
    assocFind (assocInsert l k v) k = some v := by
  induction l with
  | nil => simp [assocInsert, assocFind]
  | cons p rest ih =>
      obtain ⟨k', v'⟩ := p
      by_cases hk : k' = k <;> simp [assocInsert, assocFind, hk, ih]

theorem assocFind_insert_ne {κ α : Type} [DecidableEq κ]
    (l : List (κ × α)) (k k' : κ) (v : α) (h : k' ≠ k) :
    assocFind (assocInsert l k v) k' = assocFind l k' := by
  have hk' : ¬ (k = k') := fun hkk => h hkk.symm
  induction l with
  | nil => simp [assocInsert, assocFind, hk']
  | cons p rest ih =>
      obtain ⟨k0, v0⟩ := p
      by_cases hk : k0 = k
      · subst hk
        simp [assocInsert, assocFind, hk']
      · simp [assocInsert, assocFind, hk, ih]

theorem lookupField_eq_none_iff (fs : List FieldDefinition) (n : String) :
    lookupField fs n = none ↔ ∀ f ∈ fs, f.name ≠ n := by
  induction fs with
  | nil => simp [lookupField]
  | cons f fs ih => by_cases h : f.name = n <;> simp [lookupField, h, ih]

theorem lookupField_mem {fs : List FieldDefinition} {n : String}
    {g : FieldDefinition} (h : lookupField fs n = some g) :
    g ∈ fs ∧ g.name = n := by
  induction fs with
  | nil => simp [lookupField] at h
  | cons f fs ih =>
      by_cases hf : f.name = n
      · rw [lookupField, if_pos hf] at h
        obtain rfl : f = g := by injection h
        exact ⟨List.mem_cons_self _ _, hf⟩
      · rw [lookupField, if_neg hf] at h
        obtain ⟨h1, h2⟩ := ih h
        exact ⟨List.mem_cons_of_mem _ h1, h2⟩

theorem phase1_foldl_fms (tgt src : List FieldDefinition) (acc : GenAcc) :
    (src.foldl (phase1Step tgt) acc).fms = acc.fms ++ phase1List src tgt := by
  induction src generalizing acc with
  | nil => simp [phase1List]
  | cons f fs ih =>
      rw [List.foldl_cons, ih]
      cases h : lookupField tgt f.name with
      | none => simp [phase1Step, h, phase1List, List.filterMap_cons]
      | some g =>
          by_cases hc : is_type_compatible f.type g.type <;>
            simp [phase1Step, h, hc, phase1List, List.filterMap_cons]

theorem phase1_foldl_auto (tgt src : List FieldDefinition) (acc : GenAcc) :
    (src.foldl (phase1Step tgt) acc).auto =
      acc.auto + (phase1List src tgt).length := by
  induction src generalizing acc with
  | nil => simp [phase1List]
  | cons f fs ih =>
      rw [List.foldl_cons, ih]
      cases h : lookupField tgt f.name with
      | none => simp [phase1Step, h, phase1List, List.filterMap_cons]
      | some g =>
          by_cases hc : is_type_compatible f.type g.type <;>
            · simp [phase1Step, h, hc, phase1List, List.filterMap_cons]
              omega

theorem phase1_foldl_manual (tgt src : List FieldDefinition) (acc : GenAcc) :
    (src.foldl (phase1Step tgt) acc).manual = acc.manual := by
  induction src generalizing acc with
  | nil => simp
  | cons f fs ih =>
      rw [List.foldl_cons, ih]
      cases h : lookupField tgt f.name with
      | none => simp [phase1Step, h]
      | some g =>
          by_cases hc : is_type_compatible f.type g.type <;>
            simp [phase1Step, h, hc]

theorem phase3_foldl_fms (src : List FieldDefinition) (rules : List String)
    (tgt : List FieldDefinition) (acc : GenAcc) :
    (tgt.foldl (phase3Step src rules) acc).fms =
      acc.fms ++ phase3List src tgt rules := by
  induction tgt generalizing acc with
  | nil => simp [phase3List]
  | cons g gs ih =>
      rw [List.foldl_cons, ih]
      cases h : lookupField src g.name with
      | some f => simp [phase3Step, h, phase3List, List.filterMap_cons]
      | none =>
          by_cases h1 : g.default ≠ Value.null
          · simp [phase3Step, h, h1, phase3List, List.filterMap_cons]
          · rw [ne_eq, not_not] at h1
            by_cases h2 : g.name ∈ rules
            · simp [phase3Step, h, h1, h2, phase3List, List.filterMap_cons]
            · by_cases h3 : g.nullable <;>
                simp [phase3Step, h, h1, h2, h3, phase3List, List.filterMap_cons]

theorem phase3_foldl_auto (src : List FieldDefinition) (rules : List String)
    (tgt : List FieldDefinition) (acc : GenAcc) :
    (tgt.foldl (phase3Step src rules) acc).auto =
      acc.auto + (phase3List src tgt rules).length := by
  induction tgt generalizing acc with
  | nil => simp [phase3List]
  | cons g gs ih =>
      rw [List.foldl_cons, ih]
      cases h : lookupField src g.name with
      | some f => simp [phase3Step, h, phase3List, List.filterMap_cons]
      | none =>
          by_cases h1 : g.default ≠ Value.null
          · simp [phase3Step, h, h1, phase3List, List.filterMap_cons]
            omega
          · rw [ne_eq, not_not] at h1
            by_cases h2 : g.name ∈ rules
            · simp [phase3Step, h, h1, h2, phase3List, List.filterMap_cons]
              omega
            · by_cases h3 : g.nullable
              · simp [phase3Step, h, h1, h2, h3, phase3List, List.filterMap_cons]
                omega
              · simp [phase3Step, h, h1, h2, h3, phase3List, List.filterMap_cons]

theorem phase3_foldl_manual (src : List FieldDefinition) (rules : List String)
    (tgt : List FieldDefinition) (acc : GenAcc) :
    (tgt.foldl (phase3Step src rules) acc).manual =
      acc.manual + manualFieldCount src tgt rules := by
  induction tgt generalizing acc with
  | nil => simp [manualFieldCount]
  | cons g gs ih =>
      rw [List.foldl_cons, ih]
      cases h : lookupField src g.name with
      | some f =>
          simp [phase3Step, h, manualFieldCount, needsManual, List.filter_cons]
      | none =>
          by_cases h1 : g.default ≠ Value.null
          · simp [phase3Step, h, h1, manualFieldCount, needsManual,
              List.filter_cons]
          · rw [ne_eq, not_not] at h1
            by_cases h2 : g.name ∈ rules
            · simp [phase3Step, h, h1, h2, manualFieldCount, needsManual,
                List.filter_cons]
            · by_cases h3 : g.nullable
              · simp [phase3Step, h, h1, h2, h3, manualFieldCount, needsManual,
                  List.filter_cons]
              · simp [phase3Step, h, h1, h2, h3, manualFieldCount, needsManual,
                  List.filter_cons]
                omega

theorem generate_ok (m : DataMapper) (t : String) (st tt : TableDefinition)
    (hs : assocFind m.source_schema.tables t = some st)
    (ht : assocFind m.target_schema.tables t = some tt) :
    generate_automatic_mapping m t = Except.ok
      ({ source_table := t, target_table := t,
         field_mappings := phase1List st.fields tt.fields ++
           phase3List st.fields tt.fields m.transformation_rules,
         condition := none },
       { m with
         auto_generated_count := m.auto_generated_count +
           (phase1List st.fields tt.fields).length +
           (phase3List st.fields tt.fields m.transformation_rules).length,
         manual_count := m.manual_count +
           manualFieldCount st.fields tt.fields m.transformation_rules }) := by
  unfold generate_automatic_mapping
  rw [hs, ht]
  simp only [phase3_foldl_fms, phase3_foldl_auto, phase3_foldl_manual,
    phase1_foldl_fms, phase1_foldl_auto, phase1_foldl_manual,
    List.nil_append]

theorem generate_err (m : DataMapper) (t : String)
    (h : assocFind m.source_schema.tables t = none ∨
      assocFind m.target_schema.tables t = none) :
    generate_automatic_mapping m t =
      Except.error ("Table " ++ t ++ " not found in source or target schema") := by
  unfold generate_automatic_mapping
  cases hs : assocFind m.source_schema.tables t with
  | none => cases ht : assocFind m.target_schema.tables t <;> rfl
  | some st =>
      cases ht : assocFind m.target_schema.tables t with
      | none => rfl
      | some tt =>
          rw [hs, ht] at h
          simp at h

theorem generate_ok_delta (m : DataMapper) (t : String) (tm : TableMapping)
    (m' : DataMapper)
    (hgen : generate_automatic_mapping m t = Except.ok (tm, m')) :
    m'.auto_generated_count = m.auto_generated_count + tm.field_mappings.length ∧
    m'.manual_count = m.manual_count + manualCountFor m t ∧
    m'.source_schema = m.source_schema ∧ m'.target_schema = m.target_schema ∧
    m'.transformation_rules = m.transformation_rules ∧
    m'.mappings = m.mappings := by
  cases hs : assocFind m.source_schema.tables t with
  | none =>
      rw [generate_err m t (Or.inl hs)] at hgen
      exact absurd hgen (by simp)
  | some st =>
      cases ht : assocFind m.target_schema.tables t with
      | none =>
          rw [generate_err m t (Or.inr ht)] at hgen
          exact absurd hgen (by simp)
      | some tt =>
          rw [generate_ok m t st tt hs ht] at hgen
          simp only [Except.ok.injEq, Prod.mk.injEq] at hgen
          obtain ⟨htm, hm⟩ := hgen
          subst htm
          subst hm
          refine ⟨?_, ?_, rfl, rfl, rfl, rfl⟩
          · simp [List.length_append]
            omega
          · simp [manualCountFor, hs, ht]

theorem manualCountFor_congr (m1 m2 : DataMapper)
    (h1 : m1.source_schema = m2.source_schema)
    (h2 : m1.target_schema = m2.target_schema)
    (h3 : m1.transformation_rules = m2.transformation_rules) (t : String) :
    manualCountFor m1 t = manualCountFor m2 t := by
  unfold manualCountFor
  rw [h1, h2, h3]

theorem phase1List_filter_source_nil {src tgt : List FieldDefinition}
    {n : String} (h : ∀ f ∈ src, f.name ≠ n) :
    (phase1List src tgt).filter (fun fm => fm.source_field == some n) = [] := by
  induction src with
  | nil => simp [phase1List]
  | cons f fs ih =>
      have hf : f.name ≠ n := h f (List.mem_cons_self f fs)
      have ih' := ih (fun g hg => h g (List.mem_cons_of_mem f hg))
      cases hl : lookupField tgt f.name with
      | none =>
          simp only [phase1List, List.filterMap_cons, hl]
          exact ih'
      | some g =>
          have hhead : phase1List (f :: fs) tgt =
              (if is_type_compatible f.type g.type then directFM f.name
               else castFM f.name (get_type_cast f.type g.type)) ::
                phase1List fs tgt := by
            simp only [phase1List, List.filterMap_cons, hl]
            by_cases hc : is_type_compatible f.type g.type <;> simp [hc]
          rw [hhead, List.filter_cons_of_neg, ih']
          by_cases hc : is_type_compatible f.type g.type <;>
            simp [hc, directFM, castFM, hf]

theorem phase1List_filter_target_nil {src tgt : List FieldDefinition}
    {n : String} (h : ∀ f ∈ src, f.name ≠ n) :
    (phase1List src tgt).filter (fun fm => fm.target_field == n) = [] := by
  induction src with
  | nil => simp [phase1List]
  | cons f fs ih =>
      have hf : f.name ≠ n := h f (List.mem_cons_self f fs)
      have ih' := ih (fun g hg => h g (List.mem_cons_of_mem f hg))
      cases hl : lookupField tgt f.name with
      | none =>
          simp only [phase1List, List.filterMap_cons, hl]
          exact ih'
      | some g =>
          have hhead : phase1List (f :: fs) tgt =
              (if is_type_compatible f.type g.type then directFM f.name
               else castFM f.name (get_type_cast f.type g.type)) ::
                phase1List fs tgt := by
            simp only [phase1List, List.filterMap_cons, hl]
            by_cases hc : is_type_compatible f.type g.type <;> simp [hc]
          rw [hhead, List.filter_cons_of_neg, ih']
          by_cases hc : is_type_compatible f.type g.type <;>
            simp [hc, directFM, castFM, hf]

theorem phase1List_filter_source {src tgt : List FieldDefinition} {n : String}
    {f g : FieldDefinition}
    (hnd : (src.map FieldDefinition.name).Nodup)
    (hf : lookupField src n = some f) (hg : lookupField tgt n = some g) :
    (phase1List src tgt).filter (fun fm => fm.source_field == some n) =
      [if is_type_compatible f.type g.type then directFM n
       else castFM n (get_type_cast f.type g.type)] := by
  revert hnd hf
  induction src with
  | nil =>
      intro hnd hf
      simp [lookupField] at hf
  | cons f0 fs ih =>
      intro hnd hf
      by_cases h0 : f0.name = n
      · have hff : f0 = f := by
          rw [lookupField, if_pos h0] at hf
          injection hf
        subst hff
        have hg0 : lookupField tgt f0.name = some g := by rw [h0]; exact hg
        have htail : ∀ f2 ∈ fs, f2.name ≠ n := by
          rw [List.map_cons, List.nodup_cons] at hnd
          intro f2 hf2 hne
          exact hnd.1 (h0 ▸ hne ▸ List.mem_map_of_mem FieldDefinition.name hf2)
        have hnil := @phase1List_filter_source_nil fs tgt n htail
        have hhead : phase1List (f0 :: fs) tgt =
            (if is_type_compatible f0.type g.type then directFM f0.name
             else castFM f0.name (get_type_cast f0.type g.type)) ::
              phase1List fs tgt := by
          simp only [phase1List, List.filterMap_cons, hg0]
          by_cases hc : is_type_compatible f0.type g.type <;> simp [hc]
        rw [hhead, List.filter_cons_of_pos, hnil, h0]
        by_cases hc : is_type_compatible f0.type g.type <;>
          simp [hc, directFM, castFM, h0]
      · have hf2 : lookupField fs n = some f := by
          rw [lookupField, if_neg h0] at hf
          exact hf
        have hnd2 : (fs.map FieldDefinition.name).Nodup := by
          rw [List.map_cons, List.nodup_cons] at hnd
          exact hnd.2
        have ih' := ih hnd2 hf2
        cases hl : lookupField tgt f0.name with
        | none =>
            simp only [phase1List, List.filterMap_cons, hl]
            exact ih'
        | some g0 =>
            have hhead : phase1List (f0 :: fs) tgt =
                (if is_type_compatible f0.type g0.type then directFM f0.name
                 else castFM f0.name (get_type_cast f0.type g0.type)) ::
                  phase1List fs tgt := by
              simp only [phase1List, List.filterMap_cons, hl]
              by_cases hc : is_type_compatible f0.type g0.type <;> simp [hc]
            rw [hhead, List.filter_cons_of_neg, ih']
            by_cases hc : is_type_compatible f0.type g0.type <;>
              simp [hc, directFM, castFM, h0]

theorem phase3List_filter_target_nil {src tgt : List FieldDefinition}
    {rules : List String} {n : String} (h : ∀ g ∈ tgt, g.name ≠ n) :
    (phase3List src tgt rules).filter (fun fm => fm.target_field == n) = [] := by
  induction tgt with
  | nil => simp [phase3List]
  | cons g gs ih =>
      have hg : g.name ≠ n := h g (List.mem_cons_self g gs)
      have ih' := ih (fun g2 hg2 => h g2 (List.mem_cons_of_mem g hg2))
      cases hl : lookupField src g.name with
      | some f =>
          simp only [phase3List, List.filterMap_cons, hl]
          exact ih'
      | none =>
          by_cases h1 : g.default ≠ Value.null
          · have hhead : phase3List src (g :: gs) rules =
                defaultFM g.name g.default :: phase3List src gs rules := by
              simp only [phase3List, List.filterMap_cons, hl]
              simp [h1]
            rw [hhead, List.filter_cons_of_neg, ih']
            simp [defaultFM, hg]
          · rw [ne_eq, not_not] at h1
            by_cases h2 : g.name ∈ rules
            · have hhead : phase3List src (g :: gs) rules =
                  computedFM g.name :: phase3List src gs rules := by
                simp only [phase3List, List.filterMap_cons, hl]
                simp [h1, h2]
              rw [hhead, List.filter_cons_of_neg, ih']
              simp [computedFM, hg]
            · by_cases h3 : g.nullable
              · have hhead : phase3List src (g :: gs) rules =
                    defaultFM g.name Value.null :: phase3List src gs rules := by
                  simp only [phase3List, List.filterMap_cons, hl]
                  simp [h1, h2, h3]
                rw [hhead, List.filter_cons_of_neg, ih']
                simp [defaultFM, hg]
              · have hhead : phase3List src (g :: gs) rules =
                    phase3List src gs rules := by
                  simp only [phase3List, List.filterMap_cons, hl]
                  simp [h1, h2, h3]
                rw [hhead, ih']

theorem phase3List_filter_target {src tgt : List FieldDefinition}
    {rules : List String} {n : String} {g : FieldDefinition}
    (hnd : (tgt.map FieldDefinition.name).Nodup)
    (hsrc : lookupField src n = none) (htgt : lookupField tgt n = some g) :
    (phase3List src tgt rules).filter (fun fm => fm.target_field == n) =
      (if g.default ≠ Value.null then [defaultFM n g.default]
       else if n ∈ rules then [computedFM n]
       else if g.nullable then [defaultFM n Value.null]
       else []) := by
  revert hnd htgt
  induction tgt with
  | nil =>
      intro hnd htgt
      simp [lookupField] at htgt
  | cons g0 gs ih =>
      intro hnd htgt
      by_cases h0 : g0.name = n
      · have hgg : g0 = g := by
          rw [lookupField, if_pos h0] at htgt
          injection htgt
        subst hgg
        have hl0 : lookupField src g0.name = none := by rw [h0]; exact hsrc
        have htail : ∀ g2 ∈ gs, g2.name ≠ n := by
          rw [List.map_cons, List.nodup_cons] at hnd
          intro g2 hg2 hne
          exact hnd.1 (h0 ▸ hne ▸ List.mem_map_of_mem FieldDefinition.name hg2)
        have hnil := @phase3List_filter_target_nil src gs rules n htail
        by_cases h1 : g0.default ≠ Value.null
        · have hhead : phase3List src (g0 :: gs) rules =
              defaultFM g0.name g0.default :: phase3List src gs rules := by
            simp only [phase3List, List.filterMap_cons, hl0]
            simp [h1]
          rw [hhead, List.filter_cons_of_pos, hnil, h0, if_pos h1]
          simp [defaultFM, h0]
        · rw [ne_eq, not_not] at h1
          by_cases h2 : g0.name ∈ rules
          · have h2' : n ∈ rules := h0 ▸ h2
            have hhead : phase3List src (g0 :: gs) rules =
                computedFM g0.name :: phase3List src gs rules := by
              simp only [phase3List, List.filterMap_cons, hl0]
              simp [h1, h2]
            rw [hhead, List.filter_cons_of_pos, hnil, h0]
            · simp [h1, h2']
            · simp [computedFM, h0]
          · have h2' : n ∉ rules := fun hn => h2 (h0 ▸ hn)
            by_cases h3 : g0.nullable
            · have hhead : phase3List src (g0 :: gs) rules =
                  defaultFM g0.name Value.null :: phase3List src gs rules := by
                simp only [phase3List, List.filterMap_cons, hl0]
                simp [h1, h2, h3]
              rw [hhead, List.filter_cons_of_pos, hnil, h0]
              · simp [h1, h2', h3]
              · simp [defaultFM, h0]
            · have hhead : phase3List src (g0 :: gs) rules =
                  phase3List src gs rules := by
                simp only [phase3List, List.filterMap_cons, hl0]
                simp [h1, h2, h3]
              rw [hhead, hnil]
              simp [h1, h2', h3]
      · have ht2 : lookupField gs n = some g := by
          rw [lookupField, if_neg h0] at htgt
          exact htgt
        have hnd2 : (gs.map FieldDefinition.name).Nodup := by
          rw [List.map_cons, List.nodup_cons] at hnd
          exact hnd.2
        have ih' := ih hnd2 ht2
        cases hl : lookupField src g0.name with
        | some f =>
            simp only [phase3List, List.filterMap_cons, hl]
            exact ih'
        | none =>
            by_cases h1 : g0.default ≠ Value.null
            · have hhead : phase3List src (g0 :: gs) rules =
                  defaultFM g0.name g0.default :: phase3List src gs rules := by
                simp only [phase3List, List.filterMap_cons, hl]
                simp [h1]
              rw [hhead, List.filter_cons_of_neg, ih']
              simp [defaultFM, h0]
            · rw [ne_eq, not_not] at h1
              by_cases h2 : g0.name ∈ rules
              · have hhead : phase3List src (g0 :: gs) rules =
                    computedFM g0.name :: phase3List src gs rules := by
                  simp only [phase3List, List.filterMap_cons, hl]
                  simp [h1, h2]
                rw [hhead, List.filter_cons_of_neg, ih']
                simp [computedFM, h0]
              · by_cases h3 : g0.nullable
                · have hhead : phase3List src (g0 :: gs) rules =
                      defaultFM g0.name Value.null :: phase3List src gs rules := by
                    simp only [phase3List, List.filterMap_cons, hl]
                    simp [h1, h2, h3]
                  rw [hhead, List.filter_cons_of_neg, ih']
                  simp [defaultFM, h0]
                · have hhead : phase3List src (g0 :: gs) rules =
                      phase3List src gs rules := by
                    simp only [phase3List, List.filterMap_cons, hl]
                    simp [h1, h2, h3]
                  rw [hhead, ih']

theorem phase3List_source_none {src tgt : List FieldDefinition}
    {rules : List String} :
    ∀ fm ∈ phase3List src tgt rules, fm.source_field = none := by
  intro fm hfm
  unfold phase3List at hfm
  rw [List.mem_filterMap] at hfm
  obtain ⟨g, _, hmap⟩ := hfm
  cases hl : lookupField src g.name with
  | some f =>
      rw [hl] at hmap
      simp at hmap
  | none =>
      rw [hl] at hmap
      by_cases h1 : g.default ≠ Value.null
      · rw [if_pos h1] at hmap
        obtain rfl : defaultFM g.name g.default = fm := by injection hmap
        rfl
      · rw [if_neg h1] at hmap
        by_cases h2 : g.name ∈ rules
        · rw [if_pos h2] at hmap
          obtain rfl : computedFM g.name = fm := by injection hmap
          rfl
        · rw [if_neg h2] at hmap
          by_cases h3 : g.nullable
          · rw [if_pos h3] at hmap
            obtain rfl : defaultFM g.name Value.null = fm := by injection hmap
            rfl
          · rw [if_neg h3] at hmap
            simp at hmap

theorem phase3List_filter_source_nil {src tgt : List FieldDefinition}
    {rules : List String} {n : String} :
    (phase3List src tgt rules).filter
      (fun fm => fm.source_field == some n) = [] := by
  rw [List.filter_eq_nil_iff]
  intro fm hfm
  simp [phase3List_source_none fm hfm]

theorem get_type_cast_identity (s t : String)
    (h : is_type_compatible s t = false) : get_type_cast s t = "identity" := by
  simp only [get_type_cast, assocFind]
  by_cases c1 : (("INT", "BIGINT") : String × String) = (s, t)
  · exfalso
    obtain ⟨hs, ht⟩ := Prod.mk.injEq "INT" "BIGINT" s t ▸ c1
    rw [← hs, ← ht] at h
    exact absurd h (by decide)
  · rw [if_neg c1]
    by_cases c2 : (("FLOAT", "DOUBLE") : String × String) = (s, t)
    · exfalso
      obtain ⟨hs, ht⟩ := Prod.mk.injEq "FLOAT" "DOUBLE" s t ▸ c2
      rw [← hs, ← ht] at h
      exact absurd h (by decide)
    · rw [if_neg c2]
      by_cases c3 : (("VARCHAR", "TEXT") : String × String) = (s, t)
      · exfalso
        obtain ⟨hs, ht⟩ := Prod.mk.injEq "VARCHAR" "TEXT" s t ▸ c3
        rw [← hs, ← ht] at h
        exact absurd h (by decide)
      · rw [if_neg c3]
        by_cases c4 : (("DATE", "DATETIME") : String × String) = (s, t)
        · exfalso
          obtain ⟨hs, ht⟩ := Prod.mk.injEq "DATE" "DATETIME" s t ▸ c4
          rw [← hs, ← ht] at h
          exact absurd h (by decide)
        · rw [if_neg c4]
          rfl

theorem direct_foldlM (r : Row) (fms : List FieldMapping)
    (hdir : ∀ fm ∈ fms, fm.source_field = some fm.target_field ∧
      fm.transform = none ∧ fm.default_value = Value.null) :
    ∀ acc : Row, fms.foldlM (applyFieldMapping r) acc =
      some ((fms.map FieldMapping.target_field).foldl
        (fun a k => assocInsert a k (rowGet r k)) acc) := by
  induction fms with
  | nil => intro acc; simp
  | cons fm fms ih =>
      intro acc
      obtain ⟨h1, h2, h3⟩ := hdir fm (List.mem_cons_self fm fms)
      have ih' := ih (fun fm2 hfm2 => hdir fm2 (List.mem_cons_of_mem fm hfm2))
      have hstep : applyFieldMapping r acc fm =
          some (assocInsert acc fm.target_field (rowGet r fm.target_field)) := by
        unfold applyFieldMapping sourceValueOf
        rw [h1, h2, h3]
        simp
      rw [List.foldlM_cons, hstep]
      show fms.foldlM (applyFieldMapping r)
          (assocInsert acc fm.target_field (rowGet r fm.target_field)) = _
      rw [ih']
      rfl

theorem foldl_insert_lookup (r : Row) (keys : List String) (acc : Row)
    (k : String) :
    assocFind (keys.foldl (fun a k2 => assocInsert a k2 (rowGet r k2)) acc) k =
      if k ∈ keys then some (rowGet r k) else assocFind acc k := by
  induction keys generalizing acc with
  | nil => simp
  | cons k0 ks ih =>
      rw [List.foldl_cons, ih]
      by_cases hk : k ∈ ks
      · simp [hk, List.mem_cons]
      · by_cases h0 : k = k0
        · subst h0
          simp [hk, assocFind_insert_self]
        · simp [hk, h0, assocFind_insert_ne acc k0 k (rowGet r k0) h0,
            List.mem_cons]

theorem map_eq_of_eq_on {α β : Type} {f g : α → β} :
    ∀ l : List α, (∀ a ∈ l, f a = g a) → l.map f = l.map g
  | [], _ => rfl
  | a :: l, h => by
      rw [List.map_cons, List.map_cons, h a (List.mem_cons_self a l),
        map_eq_of_eq_on l (fun b hb => h b (List.mem_cons_of_mem a hb))]

/-! ## Claim theorems -/

/-- Claim C1, amended: for every table present in both schema versions and
every field name present in both the source and the target table (unique
field names per the schema invariant), `generate_automatic_mapping` emits
exactly one `FieldMapping` with `source_field = target_field =` that name.
The emitted mapping is `direct` with no transform whenever
`_is_type_compatible` holds, i.e. when the types are identical OR form a
widening pair, and it is `cast` with `transform = _get_type_cast(...)`
only when the types are incompatible — in which case the cast lookup
always falls back to `identity` (second conjunct). The original claim
said compatible-but-different pairs get a `cast` mapping; the code routes
them through the `direct` branch (see the counterexample). -/
theorem common_field_mapping_shape (m : DataMapper) (t : String)
    (st tt : TableDefinition) (n : String) (f g : FieldDefinition)
    (tm : TableMapping) (m' : DataMapper)
    (hs : assocFind m.source_schema.tables t = some st)
    (ht : assocFind m.target_schema.tables t = some tt)
    (hnd : (st.fields.map FieldDefinition.name).Nodup)
    (hf : lookupField st.fields n = some f)
    (hg : lookupField tt.fields n = some g)
    (hgen : generate_automatic_mapping m t = Except.ok (tm, m')) :
    tm.field_mappings.filter (fun fm => fm.source_field == some n) =
      [if is_type_compatible f.type g.type then directFM n
       else castFM n (get_type_cast f.type g.type)] ∧
    (is_type_compatible f.type g.type = false →
      get_type_cast f.type g.type = "identity") := by
  rw [generate_ok m t st tt hs ht] at hgen
  simp only [Except.ok.injEq, Prod.mk.injEq] at hgen
  obtain ⟨htm, _⟩ := hgen
  subst htm
  refine ⟨?_, fun hc => get_type_cast_identity f.type g.type hc⟩
  simp only [List.filter_append]
  rw [phase1List_filter_source hnd hf hg, phase3List_filter_source_nil,
    List.append_nil]

/-- Counterexample to claim C1 as stated: in the spec's Scenario A the
common field `age` has source type INT and target type BIGINT, a widening
(compatible but non-identical) pair; the claim requires a `cast` mapping
with transform `to_bigint`, but the generator emits a `direct` mapping
with no transform. -/
theorem scenario_a_age_mapping_is_direct :
    (generate_automatic_mapping scenarioAMapper "patients").toOption.map
        (fun p => p.1.field_mappings.filter
          (fun fm => fm.target_field == "age")) =
      some [{ source_field := some "age", target_field := "age",
              transform := none, default_value := Value.null,
              mapping_type := "direct" }] ∧
    is_type_compatible "INT" "BIGINT" = true := by
  exact ⟨by decide, by decide⟩

/-- Witness for C1's amended theorem at Scenario A's `age` field. -/
theorem common_field_mapping_shape_witness :
    scenarioATM.field_mappings.filter
        (fun fm => fm.source_field == some "age") =
      [if is_type_compatible "INT" "BIGINT" then directFM "age"
       else castFM "age" (get_type_cast "INT" "BIGINT")] :=
  (common_field_mapping_shape scenarioAMapper "patients" scenarioASourceTable
    scenarioATargetTable "age" { name := "age", type := "INT" }
    { name := "age", type := "BIGINT" } scenarioATM scenarioAFinal
    (by decide) (by decide) (by decide) (by decide) (by decide)
    (by decide)).1

/-- Claim C2: `map_row`'s per-field dispatch. If the source value is
absent or null and a default is configured, the default is used (first
branch); otherwise a configured transform is applied through
`_apply_transform` (second branch); otherwise the value is copied
verbatim (third branch). `_apply_transform` implements `to_string`
(string form of a non-null value) and `to_int`; every other name —
including `to_bigint`, `to_double`, `to_text`, `to_datetime` and
`identity`, which at this value level are exactly the no-op widening
casts — passes the value through unchanged rather than failing. -/
theorem map_row_dispatch_and_transform_registry :
    (∀ v : Value, v ≠ Value.null →
      applyTransform v "to_string" = some (Value.str (pyStr v))) ∧
    (∀ (v : Value) (t2 : String), t2 ≠ "to_string" → t2 ≠ "to_int" →
      applyTransform v t2 = some v) ∧
    (∀ (r acc : Row) (fm : FieldMapping),
      (sourceValueOf r fm = Value.null → fm.default_value ≠ Value.null →
        applyFieldMapping r acc fm =
          some (assocInsert acc fm.target_field fm.default_value)) ∧
      (∀ t2 : String,
        ¬ (sourceValueOf r fm = Value.null ∧ fm.default_value ≠ Value.null) →
        fm.transform = some t2 → t2 ≠ "" →
        applyFieldMapping r acc fm =
          (applyTransform (sourceValueOf r fm) t2).map
            (assocInsert acc fm.target_field)) ∧
      (¬ (sourceValueOf r fm = Value.null ∧ fm.default_value ≠ Value.null) →
        fm.transform = none →
        applyFieldMapping r acc fm =
          some (assocInsert acc fm.target_field (sourceValueOf r fm)))) := by
  refine ⟨?_, ?_, ?_⟩
  · intro v hv
    simp [applyTransform, hv]
  · intro v t2 h1 h2
    simp [applyTransform, h1, h2]
  · intro r acc fm
    refine ⟨?_, ?_, ?_⟩
    · intro h1 h2
      simp [applyFieldMapping, h1, h2]
    · intro t2 hno htr hne
      simp [applyFieldMapping, hno, htr, hne]
    · intro hno htr
      simp [applyFieldMapping, hno, htr]

/-- Witness for C2 at concrete values: `to_string` yields the string
form, `to_bigint` and an unknown name pass through. -/
theorem map_row_dispatch_witness :
    applyTransform (Value.int 45) "to_string" =
      some (Value.str (pyStr (Value.int 45))) ∧
    pyStr (Value.int 45) = "45" ∧
    applyTransform (Value.int 45) "to_bigint" = some (Value.int 45) ∧
    applyTransform (Value.str "x") "unknown_name" = some (Value.str "x") :=
  ⟨map_row_dispatch_and_transform_registry.1 (Value.int 45) (by decide),
   by decide,
   map_row_dispatch_and_transform_registry.2.1 (Value.int 45) "to_bigint"
     (by decide) (by decide),
   map_row_dispatch_and_transform_registry.2.1 (Value.str "x") "unknown_name"
     (by decide) (by decide)⟩

/-- Claim C3: for every field present only in the target table the
generator decides, in priority order: declared default → `default`
mapping carrying the literal; registered rule → `computed` mapping named
after the field; nullable → `default` mapping with NULL; otherwise no
mapping is emitted, the call still succeeds, and the field is counted in
`manual_count` (Scenario B's `ssn` is the witness). -/
theorem target_only_field_mapping_decision (m : DataMapper) (t : String)
    (st tt : TableDefinition) (n : String) (g : FieldDefinition)
    (tm : TableMapping) (m' : DataMapper)
    (hs : assocFind m.source_schema.tables t = some st)
    (ht : assocFind m.target_schema.tables t = some tt)
    (hnd : (tt.fields.map FieldDefinition.name).Nodup)
    (hsrc : lookupField st.fields n = none)
    (htgt : lookupField tt.fields n = some g)
    (hgen : generate_automatic_mapping m t = Except.ok (tm, m')) :
    tm.field_mappings.filter (fun fm => fm.target_field == n) =
      (if g.default ≠ Value.null then [defaultFM n g.default]
       else if n ∈ m.transformation_rules then [computedFM n]
       else if g.nullable then [defaultFM n Value.null]
       else []) ∧
    m'.manual_count = m.manual_count +
      manualFieldCount st.fields tt.fields m.transformation_rules ∧
    (g.default = Value.null → n ∉ m.transformation_rules →
      g.nullable = false →
      1 ≤ manualFieldCount st.fields tt.fields m.transformation_rules) := by
  rw [generate_ok m t st tt hs ht] at hgen
  simp only [Except.ok.injEq, Prod.mk.injEq] at hgen
  obtain ⟨htm, hm⟩ := hgen
  subst htm
  subst hm
  refine ⟨?_, rfl, ?_⟩
  · simp only [List.filter_append]
    rw [phase1List_filter_target_nil ((lookupField_eq_none_iff _ _).mp hsrc),
      phase3List_filter_target hnd hsrc htgt, List.nil_append]
  · intro h1 h2 h3
    obtain ⟨hmem, hname⟩ := lookupField_mem htgt
    have hq : needsManual st.fields m.transformation_rules g = true := by
      rw [needsManual, hname, hsrc, h1]
      simp [h2, h3]
    have hin : g ∈ tt.fields.filter
        (needsManual st.fields m.transformation_rules) :=
      List.mem_filter.mpr ⟨hmem, hq⟩
    exact List.length_pos_of_mem hin

/-- Witness for C3 at Scenario B's `ssn` field (no default, no rule,
non-nullable): nothing is emitted and the manual counter ends at 1. -/
theorem target_only_field_mapping_decision_witness :
    scenarioBTM.field_mappings.filter (fun fm => fm.target_field == "ssn") =
      [] ∧
    scenarioBFinal.manual_count = scenarioBMapper.manual_count +
      manualFieldCount scenarioASourceTable.fields scenarioBTargetTable.fields
        scenarioBMapper.transformation_rules ∧
    1 ≤ manualFieldCount scenarioASourceTable.fields
      scenarioBTargetTable.fields scenarioBMapper.transformation_rules := by
  have h := target_only_field_mapping_decision scenarioBMapper "patients"
    scenarioASourceTable scenarioBTargetTable "ssn"
    { name := "ssn", type := "VARCHAR", nullable := false } scenarioBTM
    scenarioBFinal (by decide) (by decide) (by decide) (by decide) (by decide)
    (by decide)
  exact ⟨h.1, h.2.1, h.2.2 rfl (by decide) rfl⟩

/-- Claim C4: applying a mapping whose entries are all `direct`
(`source_field = target_field`, no transform, no default) to a row that
defines every mapped field is a projection: the output contains exactly
the mapped target field names, each bound to the row's value, and no
other key. -/
theorem map_row_direct_is_projection (m : DataMapper) (t : String) (r : Row)
    (mp : TableMapping)
    (hmp : assocFind m.mappings t = some mp)
    (hdir : ∀ fm ∈ mp.field_mappings,
      fm.source_field = some fm.target_field ∧
      fm.transform = none ∧ fm.default_value = Value.null)
    (hdef : ∀ fm ∈ mp.field_mappings,
      (assocFind r fm.target_field).isSome) :
    map_row m t r =
      some (projectRow r (mp.field_mappings.map FieldMapping.target_field)) ∧
    ∀ k : String,
      assocFind
          (projectRow r (mp.field_mappings.map FieldMapping.target_field))
          k =
        if k ∈ mp.field_mappings.map FieldMapping.target_field
        then assocFind r k else none := by
  constructor
  · unfold map_row
    rw [hmp]
    exact direct_foldlM r mp.field_mappings hdir []
  · intro k
    unfold projectRow
    rw [foldl_insert_lookup]
    by_cases hk : k ∈ mp.field_mappings.map FieldMapping.target_field
    · rw [if_pos hk, if_pos hk]
      obtain ⟨fm, hfm, hfmk⟩ := List.mem_map.mp hk
      have hSome := hdef fm hfm
      rw [hfmk] at hSome
      obtain ⟨v, hv⟩ := Option.isSome_iff_exists.mp hSome
      rw [rowGet, hv]
      rfl
    · rw [if_neg hk, if_neg hk]
      rfl

/-- Witness for C4 on the registered all-direct mapping `[id, name]` and
the Scenario D sample row. -/
theorem map_row_direct_is_projection_witness :
    map_row registeredMapper "patients" sampleRow =
      some (projectRow sampleRow
        (directPatientsTM.field_mappings.map FieldMapping.target_field)) ∧
    map_row registeredMapper "patients" sampleRow =
      some [("id", Value.int 1), ("name", Value.str "A")] ∧
    assocFind (projectRow sampleRow
        (directPatientsTM.field_mappings.map FieldMapping.target_field))
        "age" = none := by
  have h := map_row_direct_is_projection registeredMapper "patients" sampleRow
    directPatientsTM (by decide) (by decide) (by decide)
  exact ⟨h.1, by decide, (h.2 "age").trans (by decide)⟩

/-- Claim C5: a table with no registered mapping is passed through
unchanged by `map_row`, while a registered mapping with an empty
field-mapping sequence projects every row to the empty row — the two
situations are observably different. -/
theorem map_row_passthrough_distinction (m : DataMapper) (t : String)
    (r : Row) (hn : assocFind m.mappings t = none) :
    map_row m t r = some r ∧
    ∀ (m2 : DataMapper) (mp : TableMapping),
      assocFind m2.mappings t = some mp → mp.field_mappings = [] →
      map_row m2 t r = some [] := by
  constructor
  · unfold map_row
    rw [hn]
  · intro m2 mp h2 hempty
    unfold map_row
    rw [h2]
    show mp.field_mappings.foldlM (applyFieldMapping r) [] = some []
    rw [hempty]
    rfl

/-- Witness for C5: the fresh Scenario A mapper passes `sampleRow`
through; the mapper with the registered empty mapping returns the empty
row. -/
theorem map_row_passthrough_distinction_witness :
    map_row scenarioAMapper "patients" sampleRow = some sampleRow ∧
    map_row emptyRegisteredMapper "patients" sampleRow = some [] := by
  have h := map_row_passthrough_distinction scenarioAMapper "patients"
    sampleRow (by decide)
  exact ⟨h.1, h.2 emptyRegisteredMapper emptyTM (by decide) rfl⟩

/-- Claim C6: for registered versions, the added tables of
`compare(v1, v2)` are exactly the removed tables of `compare(v2, v1)` and
vice versa (here even as equal lists, hence as equal sets). -/
theorem compare_added_removed_swap (sm : SchemaManager) (v1 v2 : String)
    (s1 s2 : SchemaVersion)
    (h1 : assocFind sm.versions v1 = some s1)
    (h2 : assocFind sm.versions v2 = some s2) :
    (compare_versions sm v1 v2).map SchemaDiff.added_tables =
      (compare_versions sm v2 v1).map SchemaDiff.removed_tables ∧
    (compare_versions sm v1 v2).map SchemaDiff.removed_tables =
      (compare_versions sm v2 v1).map SchemaDiff.added_tables := by
  unfold compare_versions
  rw [h1, h2]
  exact ⟨rfl, rfl⟩

/-- Witness for C6 on the two-version fixture (`a`,`b` versus `b`,`c`). -/
theorem compare_added_removed_swap_witness :
    ((compare_versions sampleManager "1" "2").map SchemaDiff.added_tables =
      (compare_versions sampleManager "2" "1").map SchemaDiff.removed_tables ∧
    (compare_versions sampleManager "1" "2").map SchemaDiff.removed_tables =
      (compare_versions sampleManager "2" "1").map SchemaDiff.added_tables) ∧
    (compare_versions sampleManager "1" "2").map SchemaDiff.added_tables =
      some ["c"] :=
  ⟨compare_added_removed_swap sampleManager "1" "2" versionOne versionTwo
    (by decide) (by decide), by decide⟩

/-- Claim C7: `generate_automatic_mapping` raises (the `ValueError`
carrying the spec's `TableNotFoundError` role) whenever the table is
missing from either schema version, and the call is atomic: the state
observable after the raised call is the original mapper state, counters
and mapping store included. -/
theorem generate_missing_table_error_atomic (m : DataMapper) (t : String)
    (h : assocFind m.source_schema.tables t = none ∨
      assocFind m.target_schema.tables t = none) :
    generate_automatic_mapping m t =
      Except.error ("Table " ++ t ++ " not found in source or target schema") ∧
    genStateAfter m t = m := by
  have herr := generate_err m t h
  refine ⟨herr, ?_⟩
  unfold genStateAfter
  rw [herr]

/-- Witness for C7: generating for a table absent from both fixtures
raises and leaves the Scenario A mapper untouched. -/
theorem generate_missing_table_error_atomic_witness :
    generate_automatic_mapping scenarioAMapper "visits" =
      Except.error "Table visits not found in source or target schema" ∧
    genStateAfter scenarioAMapper "visits" = scenarioAMapper :=
  generate_missing_table_error_atomic scenarioAMapper "visits"
    (Or.inl (by decide))

/-- Claim C8: a backup record whose `schema_version` equals the restore
engine's target version is returned with its row data unchanged, for any
configured mapper (so `map_row` is never consulted); composed with the
backup writer this is the same-version round trip. -/
theorem restore_same_version_returns_rows_unchanged (tv : String)
    (mo : Option DataMapper) (b : BackupData) (h : b.schema_version = tv) :
    restore_from_file ⟨tv, mo⟩ b = some b.data ∧
    ∀ (tn ts : String) (rows : List Row),
      restore_from_file ⟨tv, mo⟩ (backup_table tv tn ts rows) = some rows := by
  constructor
  · unfold restore_from_file
    simp [h]
  · intro tn ts rows
    unfold restore_from_file backup_table
    simp

/-- Witness for C8 on the sample backup, with a mapper configured whose
registered mapping would visibly change the row if it were applied. -/
theorem restore_same_version_returns_rows_unchanged_witness :
    restore_from_file ⟨"1.0.0", some registeredMapper⟩ sampleBackup =
      some [sampleRow] ∧
    restore_from_file ⟨"1.0.0", some registeredMapper⟩
        (backup_table "1.0.0" "patients" "20240206_120000" [sampleRow]) =
      some [sampleRow] := by
  have h := restore_same_version_returns_rows_unchanged "1.0.0"
    (some registeredMapper) sampleBackup rfl
  exact ⟨h.1, h.2 "patients" "20240206_120000" [sampleRow]⟩

/-- Claim C9: over any sequence of successful generation calls on one
mapper the counters only accumulate: the final `auto_generated_count`
is the initial one plus the total number of emitted field mappings, and
the final `manual_count` is the initial one plus the per-table counts of
target-only non-nullable default-less rule-less fields. -/
theorem counters_accumulate_over_generation_sequence (m : DataMapper)
    (ts : List String) (tms : List TableMapping) (mf : DataMapper)
    (h : runGenerateAll m ts = some (tms, mf)) :
    mf.auto_generated_count = m.auto_generated_count +
      (tms.map (fun tm => tm.field_mappings.length)).sum ∧
    mf.manual_count = m.manual_count + (ts.map (manualCountFor m)).sum := by
  induction ts generalizing m tms with
  | nil =>
      simp only [runGenerateAll, Option.some.injEq, Prod.mk.injEq] at h
      obtain ⟨rfl, rfl⟩ := h
      simp
  | cons t ts ih =>
      simp only [runGenerateAll] at h
      cases hg : generate_automatic_mapping m t with
      | error e =>
          rw [hg] at h
          simp at h
      | ok p =>
          obtain ⟨tm1, m1⟩ := p
          rw [hg] at h
          simp only [Option.map_eq_some'] at h
          obtain ⟨⟨tms1, mf1⟩, hrun, heq⟩ := h
          simp only [Prod.mk.injEq] at heq
          obtain ⟨rfl, rfl⟩ := heq
          obtain ⟨ha1, hm1, hss, hts, htr, _⟩ := generate_ok_delta m t tm1 m1 hg
          obtain ⟨ha2, hm2⟩ := ih m1 tms1 hrun
          constructor
          · rw [ha2, ha1, List.map_cons, List.sum_cons]
            omega
          · rw [hm2, hm1,
              map_eq_of_eq_on ts
                (fun t2 _ => manualCountFor_congr m1 m hss hts htr t2),
              List.map_cons, List.sum_cons]
            omega

/-- Witness for C9: one successful Scenario A generation run takes the
counters from (0, 0) to (4, 0), matching the four emitted mappings and
the absence of manual fields. -/
theorem counters_accumulate_over_generation_sequence_witness :
    runGenerateAll scenarioAMapper ["patients"] =
      some ([scenarioATM], scenarioAFinal) ∧
    scenarioAFinal.auto_generated_count =
      scenarioAMapper.auto_generated_count +
        ([scenarioATM].map (fun tm => tm.field_mappings.length)).sum ∧
    scenarioAFinal.manual_count = scenarioAMapper.manual_count +
      (["patients"].map (manualCountFor scenarioAMapper)).sum := by
  have h := counters_accumulate_over_generation_sequence scenarioAMapper
    ["patients"] [scenarioATM] scenarioAFinal (by decide)
  exact ⟨by decide, h.1, h.2⟩

/-- Claim C10: `generate_automatic_mapping` never touches the registered
mapping store — `map_row` behaves identically before and after a
successful generation call — and the generated mapping only takes effect
once `add_table_mapping` has stored it. -/
theorem generate_does_not_touch_mapping_store (m : DataMapper) (t : String)
    (tm : TableMapping) (m' : DataMapper)
    (hgen : generate_automatic_mapping m t = Except.ok (tm, m')) :
    m'.mappings = m.mappings ∧
    (∀ (tn : String) (r : Row), map_row m' tn r = map_row m tn r) ∧
    (∀ r : Row, map_row (add_table_mapping m' tm) tm.source_table r =
      tm.field_mappings.foldlM (applyFieldMapping r) []) := by
  have hmaps := (generate_ok_delta m t tm m' hgen).2.2.2.2.2
  refine ⟨hmaps, ?_, ?_⟩
  · intro tn r
    unfold map_row
    rw [hmaps]
  · intro r
    unfold map_row add_table_mapping
    rw [assocFind_insert_self]

/-- Witness for C10 on the Scenario A generation call and the sample
row: the store is unchanged, `map_row` still passes the row through, and
only after `add_table_mapping` does the generated mapping apply. -/
theorem generate_does_not_touch_mapping_store_witness :
    scenarioAFinal.mappings = scenarioAMapper.mappings ∧
    map_row scenarioAFinal "patients" sampleRow =
      map_row scenarioAMapper "patients" sampleRow ∧
    map_row (add_table_mapping scenarioAFinal scenarioATM) "patients"
        sampleRow =
      scenarioATM.field_mappings.foldlM (applyFieldMapping sampleRow) [] := by
  have h := generate_does_not_touch_mapping_store scenarioAMapper "patients"
    scenarioATM scenarioAFinal (by decide)
  exact ⟨h.1, h.2.1 "patients" sampleRow, h.2.2 sampleRow⟩

end BackupRestore
